import Mathlib

/-!
Verification of the loss/metric aggregation logic of the
`uncertainty-baselines` training scripts:
`baselines/cifar/condconv.py` and
`baselines/diabetic_retinopathy_detection/utils.py`.

Tensors are modelled as functions out of `Fin`-indexed shapes over `ℝ`,
Python dictionaries of metrics as association lists from `String` keys,
and Python exceptions as an explicit error type returned through `Except`.
-/

/-! ## Python-level error values

The exceptions the scripts can raise: the explicit `ValueError` in the
step functions, the `AttributeError` produced by looking up a name that a
module does not define, and the `KeyError` produced by indexing a `dict`
with a missing key. -/

/-- An exception raised by the Python code. -/
inductive PyError where
  | valueError (msg : String)
  | attributeError (msg : String)
  | keyError (key : String)
  deriving DecidableEq, Repr

/-! ## diabetic_retinopathy_detection/utils.py: metric dictionaries -/

/-- A metric object stored in the metrics dictionary.  Only the
constructor identity and the ECE bin count matter to the claims. -/
inductive Metric where
  | mean
  | binaryAccuracy
  | auc
  | ece (num_bins : ℕ)
  deriving DecidableEq, Repr

/-- Embedding of `get_diabetic_retinopathy_base_metrics` (utils.py lines
88-127): the base dict of five metrics, extended by `dict.update` with
the two AUC metrics when `use_tpu` and with the two ECE metrics
otherwise.  The dict is modelled as an association list in insertion
order; none of the inserted keys collide, so `update` is `++`. -/
def get_diabetic_retinopathy_base_metrics (use_tpu : Bool) (num_bins : ℕ) :
    List (String × Metric) :=
  [("train/negative_log_likelihood", Metric.mean),
   ("train/accuracy", Metric.binaryAccuracy),
   ("train/loss", Metric.mean),
   ("test/negative_log_likelihood", Metric.mean),
   ("test/accuracy", Metric.binaryAccuracy)] ++
  (if use_tpu then
    [("train/auc", Metric.auc), ("test/auc", Metric.auc)]
  else
    [("train/ece", Metric.ece num_bins), ("test/ece", Metric.ece num_bins)])

/-- The key set of the dictionary built by
`get_diabetic_retinopathy_base_metrics`. -/
def baseMetricsKeys (use_tpu : Bool) (num_bins : ℕ) : List String :=
  (get_diabetic_retinopathy_base_metrics use_tpu num_bins).map Prod.fst

/-- Embedding of the dictionary reads performed by `log_epoch_metrics`
(utils.py lines 130-158): the keys indexed into `metrics` in each
branch, in source order.  Both branches read `train/auc` and
`test/auc`; only the non-TPU branch additionally reads the ECE keys. -/
def log_epoch_metrics_keys_read (use_tpu : Bool) : List String :=
  if use_tpu then
    ["train/loss", "train/accuracy", "train/auc",
     "test/negative_log_likelihood", "test/accuracy", "test/auc"]
  else
    ["train/loss", "train/accuracy", "train/auc", "train/ece",
     "test/negative_log_likelihood", "test/accuracy", "test/auc", "test/ece"]

/-! ## diabetic_retinopathy_detection/utils.py: parse_keras_models -/

/-- One entry of a directory listing as returned by
`io.gfile.listdir(checkpoint_dir)`, together with whether
`tf.io.gfile.isdir` holds of the corresponding joined path. -/
structure DirEntry where
  name : String
  isDir : Bool
  deriving DecidableEq, Repr

/-- Check that the character list `pat` occurs as a contiguous substring
of `s`; embedding of the Python expression `pat in s` on strings. -/
def charsContain (s pat : List Char) : Bool :=
  match s with
  | [] => pat.isEmpty
  | _ :: t => pat.isPrefixOf s || charsContain t pat

/-- Embedding of the Python substring test `'keras_model' in dir_name`. -/
def strContains (s pat : String) : Bool :=
  charsContain s.data pat.data

/-- Embedding of `os.path.join(a, b)` for a single component: if `b` is
absolute it wins; otherwise the parts are joined with exactly one
separator. -/
def os_path_join (a b : String) : String :=
  if b.startsWith "/" then b
  else if a = "" then b
  else if a.endsWith "/" then a ++ b
  else a ++ "/" ++ b

/-- Embedding of `parse_keras_models` (utils.py lines 192-208): start
from `paths = []`, loop over the listing of `checkpoint_dir`, and append
`os.path.join(checkpoint_dir, dir_name)` whenever the joined path is a
directory and `dir_name` contains the substring `keras_model`. -/
def parse_keras_models (checkpoint_dir : String) (listing : List DirEntry) :
    List String :=
  listing.foldl
    (fun paths e =>
      if e.isDir && strContains e.name "keras_model" then
        paths ++ [os_path_join checkpoint_dir e.name]
      else paths)
    []

/-! ## cifar/condconv.py: tensor arithmetic

Shapes: `B` batch, `E` experts (`FLAGS.num_experts`), `C` classes.  A
`[B, E, C]` tensor is a function `Fin B → Fin E → Fin C → ℝ`. -/

/-- Embedding of `tf.nn.softmax` over the last axis of a vector of
logits. -/
noncomputable def tf_nn_softmax {C : ℕ} (x : Fin C → ℝ) : Fin C → ℝ :=
  fun i => Real.exp (x i) / ∑ j, Real.exp (x j)

/-- Embedding of
`tf.keras.losses.sparse_categorical_crossentropy(label, x, from_logits=True)`
for one example: the negative log of the softmax probability of the
label class. -/
noncomputable def sparse_ce_from_logits {C : ℕ} (x : Fin C → ℝ) (label : Fin C) : ℝ :=
  -Real.log (tf_nn_softmax x label)

/-- Embedding of
`tf.keras.losses.sparse_categorical_crossentropy(label, p, from_logits=False)`
for one example: the negative log of the probability assigned to the
label class. -/
noncomputable def sparse_ce_from_probs {C : ℕ} (p : Fin C → ℝ) (label : Fin C) : ℝ :=
  -Real.log (p label)

/-- Embedding of `tf.math.reduce_mean(t, axis=1)` on a `[B, E, C]`
tensor: sum over the expert axis divided by its size. -/
noncomputable def reduce_mean_experts {B E C : ℕ} (t : Fin B → Fin E → Fin C → ℝ) :
    Fin B → Fin C → ℝ :=
  fun b c => (∑ e, t b e c) / (E : ℝ)

/-- Embedding of `tf.math.reduce_sum(t, axis=1)` on a `[B, E, C]`
tensor. -/
noncomputable def reduce_sum_experts {B E C : ℕ} (t : Fin B → Fin E → Fin C → ℝ) :
    Fin B → Fin C → ℝ :=
  fun b c => ∑ e, t b e c

/-- Embedding of `tf.math.reduce_mean(t)` on a `[B, E]` tensor: the sum
of all entries divided by the number of entries. -/
noncomputable def reduce_mean_all {B E : ℕ} (t : Fin B → Fin E → ℝ) : ℝ :=
  (∑ b, ∑ e, t b e) / ((B : ℝ) * (E : ℝ))

/-- Embedding of `tf.math.reduce_sum(t, axis=1)` on a `[B, E]` tensor. -/
noncomputable def reduce_sum_axis1 {B E : ℕ} (t : Fin B → Fin E → ℝ) : Fin B → ℝ :=
  fun b => ∑ e, t b e

/-- Embedding of `tf.math.reduce_mean(v)` on a `[B]` vector. -/
noncomputable def reduce_mean_vec {B : ℕ} (v : Fin B → ℝ) : ℝ :=
  (∑ b, v b) / (B : ℝ)

/-- The dictionary returned by `_process_3d_logits` (condconv.py lines
303-327). -/
structure Process3dResults (B E C : ℕ) where
  weighted_logits : Fin B → Fin C → ℝ
  unweighted_logits : Fin B → Fin C → ℝ
  unweighted_probs : Fin B → Fin C → ℝ
  weighted_probs : Fin B → Fin C → ℝ
  neg_log_likelihoods : Fin B → Fin E → ℝ
  unweighted_gibbs_ce : ℝ
  weighted_gibbs_ce : ℝ

/-- Embedding of `_process_3d_logits(logits, routing_weights, labels)`
(condconv.py lines 303-327).  `tf.expand_dims(routing_weights, -1)`
followed by broadcast multiplication is the function
`fun b e c => routing_weights b e * logits b e c`; `tf.tile` of the
reshaped labels gives `fun b e => labels b`, so the `[B, E]` tensor of
per-expert cross-entropies is
`fun b e => sparse_ce_from_logits (logits b e) (labels b)`. -/
noncomputable def _process_3d_logits {B E C : ℕ}
    (logits : Fin B → Fin E → Fin C → ℝ)
    (routing_weights : Fin B → Fin E → ℝ)
    (labels : Fin B → Fin C) : Process3dResults B E C :=
  let probs : Fin B → Fin E → Fin C → ℝ := fun b e => tf_nn_softmax (logits b e)
  let neg_log_likelihoods : Fin B → Fin E → ℝ :=
    fun b e => sparse_ce_from_logits (logits b e) (labels b)
  { weighted_logits :=
      reduce_mean_experts (fun b e c => routing_weights b e * logits b e c)
    unweighted_logits := reduce_mean_experts logits
    unweighted_probs := reduce_mean_experts probs
    weighted_probs :=
      reduce_sum_experts (fun b e c => routing_weights b e * probs b e c)
    neg_log_likelihoods := neg_log_likelihoods
    unweighted_gibbs_ce := reduce_mean_all neg_log_likelihoods
    weighted_gibbs_ce :=
      reduce_mean_vec (reduce_sum_axis1
        (fun b e => routing_weights b e * neg_log_likelihoods b e)) }

/-- The six values of the `loss` flag (condconv.py lines 90-97). -/
inductive Loss where
  | gibbs_ce
  | unweighted_gibbs_ce
  | moe
  | unweighted_moe
  | poe
  | unweighted_poe
  deriving DecidableEq, Repr

/-- The attribute lookup `tf.softmax` performed by the `poe` and
`unweighted_poe` branches of `_process_3d_logits_train` (condconv.py
lines 348 and 353).  The TensorFlow module has no top-level `softmax`
attribute (the function lives at `tf.nn.softmax`), so the lookup raises
`AttributeError` instead of producing a function. -/
def tf_softmax (B C : ℕ) :
    Except PyError ((Fin B → Fin C → ℝ) → Fin B → Fin C → ℝ) :=
  Except.error (PyError.attributeError
    "module tensorflow has no attribute softmax")

/-- Embedding of `_process_3d_logits_train` (condconv.py lines 329-358):
select `(probs, negative_log_likelihood)` according to the `loss` flag.
The `moe` losses average `sparse_categorical_crossentropy(labels, probs,
from_logits=False)` over the batch; the `poe` losses first evaluate
`tf.softmax(...)`, whose failing attribute lookup aborts the branch. -/
noncomputable def _process_3d_logits_train {B E C : ℕ} (loss : Loss)
    (logits : Fin B → Fin E → Fin C → ℝ)
    (routing_weights : Fin B → Fin E → ℝ)
    (labels : Fin B → Fin C) :
    Except PyError ((Fin B → Fin C → ℝ) × ℝ) :=
  let r := _process_3d_logits logits routing_weights labels
  match loss with
  | Loss.gibbs_ce => Except.ok (r.weighted_probs, r.weighted_gibbs_ce)
  | Loss.unweighted_gibbs_ce =>
      Except.ok (r.unweighted_probs, r.unweighted_gibbs_ce)
  | Loss.moe =>
      Except.ok (r.weighted_probs,
        reduce_mean_vec (fun b => sparse_ce_from_probs (r.weighted_probs b) (labels b)))
  | Loss.unweighted_moe =>
      Except.ok (r.unweighted_probs,
        reduce_mean_vec (fun b => sparse_ce_from_probs (r.unweighted_probs b) (labels b)))
  | Loss.poe => do
      let sm ← tf_softmax B C
      Except.ok (sm r.weighted_logits,
        reduce_mean_vec (fun b => sparse_ce_from_logits (r.weighted_logits b) (labels b)))
  | Loss.unweighted_poe => do
      let sm ← tf_softmax B C
      Except.ok (sm r.unweighted_logits,
        reduce_mean_vec (fun b => sparse_ce_from_logits (r.unweighted_logits b) (labels b)))

/-! ## cifar/condconv.py: step functions and metric dictionaries -/

/-- The value produced by `model(images, training=...)`: either the
tuple `(logits, all_routing_weights)` expected by the step functions —
with `routing_weights = all_routing_weights[-1]` of shape `[B, E]` — or
a bare tensor, which fails the `isinstance(logits, tuple)` check. -/
inductive ModelOutput (B E C : ℕ) where
  | tuple (logits : Fin B → Fin E → Fin C → ℝ)
      (routing_weights : Fin B → Fin E → ℝ)
  | tensor (logits : Fin B → Fin C → ℝ)

/-- Whether the model output passes the `isinstance(logits, tuple)`
check. -/
def ModelOutput.isTuple {B E C : ℕ} : ModelOutput B E C → Bool
  | ModelOutput.tuple _ _ => true
  | ModelOutput.tensor _ => false

/-- Run a sequence of `dict[key].update_state(...)` calls against the
set of keys present in the dictionary: the first missing key raises
`KeyError`, otherwise all updates succeed. -/
def updateAll (avail : List String) : List String → Except PyError Unit
  | [] => Except.ok ()
  | k :: rest =>
      if k ∈ avail then updateAll avail rest
      else Except.error (PyError.keyError k)

/-- The keys of the `corrupt_metrics` dictionary built before training
(condconv.py lines 274-291): six metrics for every corrupted dataset
name `'{corruption}_{intensity}'`.  The source iterates intensities and
corruption types; `dataset_names` is that list of formatted names. -/
def corrupt_metrics_keys (dataset_names : List String) : List String :=
  dataset_names.flatMap (fun n =>
    ["test/nll_" ++ n,
     "test/accuracy_" ++ n,
     "test/ece_" ++ n,
     "test/nll_weighted_moe_" ++ n,
     "test/accuracy_weighted_moe_" ++ n,
     "test/ece_weighted_moe_" ++ n])

/-- The `metrics` keys updated by the clean-dataset CondDense branch of
`test_step` (condconv.py lines 455-489), in source order, including the
per-expert routing-weight metrics. -/
def clean_cond_dense_updated_keys (num_experts : ℕ) : List String :=
  ["test/nll_poe", "test/nll_moe", "test/nll_unweighted_poe",
   "test/nll_unweighted_moe", "test/unweighted_gibbs_ce",
   "test/negative_log_likelihood", "test/ece", "test/accuracy",
   "test/ece_unweighted_moe", "test/accuracy_unweighted_moe",
   "test/ece_poe", "test/accuracy_poe", "test/ece_unweighted_poe",
   "test/accuracy_unweighted_poe"] ++
  (List.range num_experts).flatMap (fun idx =>
    ["test/dense_routing_weight_" ++ toString idx,
     "test/dense_routing_weight_normalized_" ++ toString idx])

/-- The `corrupt_metrics` keys updated by the corrupted-dataset
CondDense branch of `test_step` (condconv.py lines 499-512), in source
order.  The format strings on lines 507 and 511 are
`'test/nll_weighted_moe{}'` and `'test/ece_weighted_moe{}'`, without an
underscore before the dataset name. -/
def corrupt_cond_dense_updated_keys (dataset_name : String) : List String :=
  ["test/nll_" ++ dataset_name,
   "test/accuracy_" ++ dataset_name,
   "test/ece_" ++ dataset_name,
   "test/nll_weighted_moe" ++ dataset_name,
   "test/accuracy_weighted_moe_" ++ dataset_name,
   "test/ece_weighted_moe" ++ dataset_name]

/-- Embedding of the error-relevant behaviour of `train_step.step_fn`
(condconv.py lines 391-427): raise `ValueError` when the model output is
not a tuple; otherwise, on the CondDense path, run
`_process_3d_logits_train` (whose `poe` branches fail on `tf.softmax`);
otherwise compute softmax and the mean cross-entropy directly, which
always succeeds.  The train metrics updated afterwards all exist in
`metrics` by construction (lines 234-242). -/
noncomputable def train_step_fn {B E C : ℕ} (loss : Loss)
    (reduce_dense_outputs use_cond_dense : Bool)
    (out : ModelOutput B E C) (labels : Fin B → Fin C) :
    Except PyError Unit :=
  match out with
  | ModelOutput.tensor _ =>
      Except.error (PyError.valueError "Logits are not a tuple.")
  | ModelOutput.tuple logits routing_weights =>
      if !reduce_dense_outputs && use_cond_dense then
        (_process_3d_logits_train loss logits routing_weights labels).map
          (fun _ => ())
      else
        Except.ok ()

/-- Embedding of the error-relevant behaviour of `test_step.step_fn`
(condconv.py lines 435-519): raise `ValueError` when the model output is
not a tuple; then update metrics, looking every key up in the `metrics`
dictionary (clean dataset, keys `metric_keys`) or in the
`corrupt_metrics` dictionary (corrupted dataset, keys `corrupt_keys`).
The non-CondDense clean branch updates `test/negative_log_likelihood`,
`test/accuracy` and `test/ece` (lines 493-496). -/
def test_step_fn {B E C : ℕ} (reduce_dense_outputs use_cond_dense : Bool)
    (num_experts : ℕ) (dataset_name : String)
    (metric_keys corrupt_keys : List String)
    (out : ModelOutput B E C) (_labels : Fin B → Fin C) :
    Except PyError Unit :=
  match out with
  | ModelOutput.tensor _ =>
      Except.error (PyError.valueError "Logits not a tuple")
  | ModelOutput.tuple _ _ =>
      if dataset_name = "clean" then
        if !reduce_dense_outputs && use_cond_dense then
          updateAll metric_keys (clean_cond_dense_updated_keys num_experts)
        else
          updateAll metric_keys
            ["test/negative_log_likelihood", "test/accuracy", "test/ece"]
      else
        if !reduce_dense_outputs && use_cond_dense then
          updateAll corrupt_keys (corrupt_cond_dense_updated_keys dataset_name)
        else
          updateAll corrupt_keys
            ["test/nll_" ++ dataset_name,
             "test/accuracy_" ++ dataset_name,
             "test/ece_" ++ dataset_name]

/-! ## cifar/condconv.py: the training loop

The loop (lines 527-590) is modelled as the list of observable events it
performs, in order: training steps, evaluation steps on named test sets,
periodic checkpoint saves, and the final save after the loop. -/

/-- An observable event of the training loop. -/
inductive Event where
  | trainStep (epoch step : ℕ)
  | evalStep (epoch : ℕ) (dataset_name : String) (step : ℕ)
  | saveCheckpoint (epoch : ℕ)
  | saveFinal
  deriving DecidableEq, Repr

/-- The flag and dataset configuration the loop depends on.
`corrupt_names` lists the keys of `test_datasets` other than `clean`,
i.e. the corrupted dataset names (only present when
`corruptions_interval > 0`, matching lines 174-190). -/
structure LoopConfig where
  initial_epoch : ℕ
  train_epochs : ℕ
  steps_per_epoch : ℕ
  steps_per_eval : ℕ
  corruptions_interval : ℤ
  checkpoint_interval : ℤ
  corrupt_names : List String

/-- Embedding of the `datasets_to_evaluate` selection (lines 544-547):
the clean set always; the whole `test_datasets` dict — clean first, then
the corrupted sets — when `corruptions_interval > 0` and
`(epoch + 1) % corruptions_interval == 0`. -/
def datasetsToEvaluate (cfg : LoopConfig) (epoch : ℕ) : List String :=
  if 0 < cfg.corruptions_interval ∧
      ((epoch : ℤ) + 1) % cfg.corruptions_interval = 0 then
    "clean" :: cfg.corrupt_names
  else
    ["clean"]

/-- The events of one iteration of the epoch loop (lines 527-587):
`steps_per_epoch` training steps, then `steps_per_eval` evaluation steps
on each selected dataset, then a checkpoint save when
`checkpoint_interval > 0` and `(epoch + 1) % checkpoint_interval == 0`. -/
def epochEvents (cfg : LoopConfig) (epoch : ℕ) : List Event :=
  (List.range cfg.steps_per_epoch).map (Event.trainStep epoch) ++
  (datasetsToEvaluate cfg epoch).flatMap (fun name =>
    (List.range cfg.steps_per_eval).map (Event.evalStep epoch name)) ++
  (if 0 < cfg.checkpoint_interval ∧
      ((epoch : ℤ) + 1) % cfg.checkpoint_interval = 0 then
    [Event.saveCheckpoint epoch]
  else
    [])

/-- Embedding of the whole training loop (lines 527-590):
`for epoch in range(initial_epoch, train_epochs)` runs the per-epoch
events, and one final checkpoint save follows the loop unconditionally
(lines 588-590). -/
def mainLoopEvents (cfg : LoopConfig) : List Event :=
  (List.range' cfg.initial_epoch (cfg.train_epochs - cfg.initial_epoch)).flatMap
    (epochEvents cfg) ++ [Event.saveFinal]

/-! ## Specification-side definitions

Definitions taken from the words of the specification and of the claims,
to be compared with the embedded code. -/

/-- The weighted mean of the values `x` under the weights `w`, as the
specification phrase "weighted mean over an expert axis" reads: the
weighted sum normalized by the total weight. -/
noncomputable def specWeightedMean {E : ℕ} (w x : Fin E → ℝ) : ℝ :=
  (∑ e, w e * x e) / (∑ e, w e)

/-- The arithmetic mean of the values `x` over the expert axis. -/
noncomputable def specArithMean {E : ℕ} (x : Fin E → ℝ) : ℝ :=
  (∑ e, x e) / (E : ℝ)

/-- The plain weighted sum of the values `x` under the weights `w`,
with no normalization. -/
noncomputable def specWeightedSum {E : ℕ} (w x : Fin E → ℝ) : ℝ :=
  ∑ e, w e * x e

/-- Whether an event is a training step. -/
def Event.isTrain : Event → Bool
  | Event.trainStep _ _ => true
  | _ => false

/-! ## Theorems -/

/-- C8: for every `num_bins`, the dictionary returned by
`get_diabetic_retinopathy_base_metrics` always contains the five base
keys; it contains the AUC keys exactly when `use_tpu` is true and the
ECE keys exactly when `use_tpu` is false; and it never contains both an
AUC key and an ECE key. -/
theorem base_metrics_keys_exact (use_tpu : Bool) (num_bins : ℕ) :
    ("train/negative_log_likelihood" ∈ baseMetricsKeys use_tpu num_bins ∧
     "train/accuracy" ∈ baseMetricsKeys use_tpu num_bins ∧
     "train/loss" ∈ baseMetricsKeys use_tpu num_bins ∧
     "test/negative_log_likelihood" ∈ baseMetricsKeys use_tpu num_bins ∧
     "test/accuracy" ∈ baseMetricsKeys use_tpu num_bins) ∧
    (("train/auc" ∈ baseMetricsKeys use_tpu num_bins ∧
      "test/auc" ∈ baseMetricsKeys use_tpu num_bins) ↔ use_tpu = true) ∧
    (("train/ece" ∈ baseMetricsKeys use_tpu num_bins ∧
      "test/ece" ∈ baseMetricsKeys use_tpu num_bins) ↔ use_tpu = false) ∧
    ¬(("train/auc" ∈ baseMetricsKeys use_tpu num_bins ∨
       "test/auc" ∈ baseMetricsKeys use_tpu num_bins) ∧
      ("train/ece" ∈ baseMetricsKeys use_tpu num_bins ∨
       "test/ece" ∈ baseMetricsKeys use_tpu num_bins)) := by
  cases use_tpu <;>
    simp [baseMetricsKeys, get_diabetic_retinopathy_base_metrics]

/-- C9, counterexample: with `use_tpu = false`, `log_epoch_metrics`
reads the key `train/auc`, which the dictionary returned by
`get_diabetic_retinopathy_base_metrics(False, 15)` does not contain, so
composing the two functions fails a dictionary lookup. -/
theorem log_epoch_metrics_reads_missing_key :
    "train/auc" ∈ log_epoch_metrics_keys_read false ∧
    "train/auc" ∉ baseMetricsKeys false 15 := by
  decide

/-- C9, amended: for `use_tpu = true` every key `log_epoch_metrics`
reads is present in the base-metrics dictionary; for `use_tpu = false`
the reads include `train/auc` and `test/auc`, which are absent from the
base-metrics dictionary (they are expected to be added to it outside the
strategy scope), and every other key read is present. -/
theorem log_epoch_metrics_keys_amended (num_bins : ℕ) :
    log_epoch_metrics_keys_read true ⊆ baseMetricsKeys true num_bins ∧
    "train/auc" ∈ log_epoch_metrics_keys_read false ∧
    "train/auc" ∉ baseMetricsKeys false num_bins ∧
    "test/auc" ∈ log_epoch_metrics_keys_read false ∧
    "test/auc" ∉ baseMetricsKeys false num_bins ∧
    (log_epoch_metrics_keys_read false).removeAll ["train/auc", "test/auc"]
      ⊆ baseMetricsKeys false num_bins := by
  refine ⟨?_, ?_, ?_, ?_, ?_, ?_⟩ <;>
    simp [log_epoch_metrics_keys_read, baseMetricsKeys,
      get_diabetic_retinopathy_base_metrics, List.removeAll,
      List.subset_def]

/-- C10: `parse_keras_models` returns exactly the joined paths of the
listed entries that are directories and whose name contains the
substring `keras_model`, in listing order. -/
theorem parse_keras_models_spec (checkpoint_dir : String)
    (listing : List DirEntry) :
    parse_keras_models checkpoint_dir listing =
      (listing.filter
        (fun e => e.isDir && strContains e.name "keras_model")).map
        (fun e => os_path_join checkpoint_dir e.name) := by
  suffices h : ∀ acc : List String,
      listing.foldl
        (fun paths e =>
          if e.isDir && strContains e.name "keras_model" then
            paths ++ [os_path_join checkpoint_dir e.name]
          else paths) acc =
      acc ++ (listing.filter
        (fun e => e.isDir && strContains e.name "keras_model")).map
        (fun e => os_path_join checkpoint_dir e.name) by
    simpa [parse_keras_models] using h []
  induction listing with
  | nil => intro acc; simp
  | cons e t ih =>
      intro acc
      rw [List.foldl_cons, List.filter_cons]
      by_cases hc : (e.isDir && strContains e.name "keras_model") = true
      · rw [if_pos hc, if_pos hc, ih, List.map_cons, List.append_assoc,
          List.singleton_append]
      · rw [if_neg hc, if_neg hc, ih]

/-! ### Membership lemmas for the training-loop trace -/

/-- Helper: a checkpoint-save event occurs in the events of epoch `a`
exactly when it names that epoch and the checkpoint condition holds. -/
theorem mem_epochEvents_saveCheckpoint (cfg : LoopConfig) (a e : ℕ) :
    Event.saveCheckpoint e ∈ epochEvents cfg a ↔
      (e = a ∧ 0 < cfg.checkpoint_interval ∧
       ((a : ℤ) + 1) % cfg.checkpoint_interval = 0) := by
  simp [epochEvents]
  tauto

/-- Helper: a training-step event occurs in the events of epoch `a`
exactly when it names that epoch and its step index is in range. -/
theorem mem_epochEvents_trainStep (cfg : LoopConfig) (a e k : ℕ) :
    Event.trainStep e k ∈ epochEvents cfg a ↔
      (e = a ∧ k < cfg.steps_per_epoch) := by
  simp [epochEvents]
  tauto

/-- Helper: an evaluation-step event occurs in the events of epoch `a`
exactly when it names that epoch, its step index is in range, and its
dataset is evaluated in that epoch. -/
theorem mem_epochEvents_evalStep (cfg : LoopConfig) (a e k : ℕ) (name : String) :
    Event.evalStep e name k ∈ epochEvents cfg a ↔
      (e = a ∧ k < cfg.steps_per_eval ∧ name ∈ datasetsToEvaluate cfg a) := by
  simp only [epochEvents, List.mem_append, List.mem_flatMap, List.mem_map,
    List.mem_range, List.mem_ite_nil_right, List.mem_singleton,
    List.mem_cons, List.not_mem_nil]
  constructor
  · rintro ((⟨i, _, hi⟩ | ⟨w, hw, i, hik, hi⟩) | ⟨_, hi | hi⟩)
    · cases hi
    · injection hi with h1 h2 h3
      subst h1; subst h2; subst h3
      exact ⟨rfl, hik, hw⟩
    · cases hi
    · cases hi
  · rintro ⟨rfl, hk, hname⟩
    exact Or.inl (Or.inr ⟨name, hname, k, hk, rfl⟩)

/-- Helper: the final save never occurs inside an epoch. -/
theorem saveFinal_not_mem_epochEvents (cfg : LoopConfig) (a : ℕ) :
    Event.saveFinal ∉ epochEvents cfg a := by
  simp [epochEvents]

/-- Helper: membership in the epoch range `range(initial, total)`. -/
theorem mem_range_sub_iff (i n e : ℕ) :
    e ∈ List.range' i (n - i) ↔ i ≤ e ∧ e < n := by
  rw [List.mem_range'_1]
  omega

/-- Helper: the datasets evaluated in an epoch are the clean set, plus
the corrupted sets when the corruption-evaluation condition holds. -/
theorem mem_datasetsToEvaluate (cfg : LoopConfig) (a : ℕ) (name : String) :
    name ∈ datasetsToEvaluate cfg a ↔
      (name = "clean" ∨ (name ∈ cfg.corrupt_names ∧
        0 < cfg.corruptions_interval ∧
        ((a : ℤ) + 1) % cfg.corruptions_interval = 0)) := by
  rw [datasetsToEvaluate]
  split <;> rename_i h <;>
    simp only [List.mem_cons, List.mem_singleton, List.not_mem_nil,
      or_false] <;>
    tauto

/-- Helper: in a list that is an all-`p` block followed by a no-`p`
block, the `p`-prefix and the `p`-filter coincide. -/
theorem takeWhile_eq_filter_split {α : Type} (p : α → Bool) (A B : List α)
    (hA : ∀ x ∈ A, p x = true) (hB : ∀ x ∈ B, p x = false) :
    (A ++ B).takeWhile p = (A ++ B).filter p := by
  induction A with
  | nil =>
      simp only [List.nil_append]
      cases B with
      | nil => rfl
      | cons b t =>
          rw [List.takeWhile_cons, List.filter_cons,
            hB b (List.mem_cons_self b t)]
          simp only [Bool.false_eq_true, if_false]
          symm
          rw [List.filter_eq_nil_iff]
          intro x hx
          simp [hB x (List.mem_cons_of_mem b hx)]
  | cons a t ih =>
      rw [List.cons_append, List.takeWhile_cons, List.filter_cons,
        hA a (List.mem_cons_self a t)]
      simp only [if_true]
      rw [ih (fun x hx => hA x (List.mem_cons_of_mem a hx))]

/-- C6: a checkpoint is saved at the end of epoch `e` of the loop
exactly when `checkpoint_interval > 0` and `(e+1)` is divisible by it
and `e` is an epoch the loop runs; and in every run exactly one final
checkpoint save happens, as the last event, after the loop completes,
regardless of `checkpoint_interval`. -/
theorem checkpoint_schedule (cfg : LoopConfig) (e : ℕ) :
    (Event.saveCheckpoint e ∈ mainLoopEvents cfg ↔
      (cfg.initial_epoch ≤ e ∧ e < cfg.train_epochs ∧
       0 < cfg.checkpoint_interval ∧
       ((e : ℤ) + 1) % cfg.checkpoint_interval = 0)) ∧
    (mainLoopEvents cfg).getLast? = some Event.saveFinal ∧
    (mainLoopEvents cfg).count Event.saveFinal = 1 := by
  refine ⟨?_, ?_, ?_⟩
  · rw [mainLoopEvents]
    simp only [List.mem_append, List.mem_flatMap, List.mem_singleton]
    constructor
    · rintro (⟨a, ha, hmem⟩ | h)
      · rw [mem_epochEvents_saveCheckpoint] at hmem
        obtain ⟨rfl, h1, h2⟩ := hmem
        rw [mem_range_sub_iff] at ha
        exact ⟨ha.1, ha.2, h1, h2⟩
      · cases h
    · rintro ⟨h1, h2, h3, h4⟩
      exact Or.inl ⟨e, (mem_range_sub_iff _ _ _).2 ⟨h1, h2⟩,
        (mem_epochEvents_saveCheckpoint cfg e e).2 ⟨rfl, h3, h4⟩⟩
  · rw [mainLoopEvents]
    exact List.getLast?_concat _
  · rw [mainLoopEvents, List.count_append]
    have h0 : ((List.range' cfg.initial_epoch
        (cfg.train_epochs - cfg.initial_epoch)).flatMap
          (epochEvents cfg)).count Event.saveFinal = 0 := by
      rw [List.count_eq_zero]
      intro hmem
      rw [List.mem_flatMap] at hmem
      obtain ⟨a, _, hmem⟩ := hmem
      exact saveFinal_not_mem_epochEvents cfg a hmem
    rw [h0]
    rfl

/-- C7: the loop runs training step `k` of epoch `e` exactly when `e`
is an epoch of the loop and `k < steps_per_epoch`; evaluation step `k`
of dataset `name` runs in epoch `e` exactly when `k < steps_per_eval`
and the dataset is the clean set or a corrupted set selected by the
corruption condition; with `corruptions_interval = -1` only the clean
set is ever evaluated; and within an epoch the training steps all come
first, before any evaluation. -/
theorem epoch_schedule (cfg : LoopConfig) (e k : ℕ) (name : String) :
    (Event.trainStep e k ∈ mainLoopEvents cfg ↔
      (cfg.initial_epoch ≤ e ∧ e < cfg.train_epochs ∧
       k < cfg.steps_per_epoch)) ∧
    (Event.evalStep e name k ∈ mainLoopEvents cfg ↔
      (cfg.initial_epoch ≤ e ∧ e < cfg.train_epochs ∧
       k < cfg.steps_per_eval ∧
       (name = "clean" ∨ (name ∈ cfg.corrupt_names ∧
         0 < cfg.corruptions_interval ∧
         ((e : ℤ) + 1) % cfg.corruptions_interval = 0)))) ∧
    (cfg.corruptions_interval = -1 →
      (Event.evalStep e name k ∈ mainLoopEvents cfg ↔
        (cfg.initial_epoch ≤ e ∧ e < cfg.train_epochs ∧
         k < cfg.steps_per_eval ∧ name = "clean"))) ∧
    ((epochEvents cfg e).filter Event.isTrain).length =
      cfg.steps_per_epoch ∧
    (epochEvents cfg e).takeWhile Event.isTrain =
      (epochEvents cfg e).filter Event.isTrain := by
  have htrain : Event.trainStep e k ∈ mainLoopEvents cfg ↔
      (cfg.initial_epoch ≤ e ∧ e < cfg.train_epochs ∧
       k < cfg.steps_per_epoch) := by
    rw [mainLoopEvents]
    simp only [List.mem_append, List.mem_flatMap, List.mem_singleton]
    constructor
    · rintro (⟨a, ha, hmem⟩ | h)
      · rw [mem_epochEvents_trainStep] at hmem
        obtain ⟨rfl, h1⟩ := hmem
        rw [mem_range_sub_iff] at ha
        exact ⟨ha.1, ha.2, h1⟩
      · cases h
    · rintro ⟨h1, h2, h3⟩
      exact Or.inl ⟨e, (mem_range_sub_iff _ _ _).2 ⟨h1, h2⟩,
        (mem_epochEvents_trainStep cfg e e k).2 ⟨rfl, h3⟩⟩
  have heval : Event.evalStep e name k ∈ mainLoopEvents cfg ↔
      (cfg.initial_epoch ≤ e ∧ e < cfg.train_epochs ∧
       k < cfg.steps_per_eval ∧
       (name = "clean" ∨ (name ∈ cfg.corrupt_names ∧
         0 < cfg.corruptions_interval ∧
         ((e : ℤ) + 1) % cfg.corruptions_interval = 0))) := by
    rw [mainLoopEvents]
    simp only [List.mem_append, List.mem_flatMap, List.mem_singleton]
    constructor
    · rintro (⟨a, ha, hmem⟩ | h)
      · rw [mem_epochEvents_evalStep] at hmem
        obtain ⟨rfl, h1, h2⟩ := hmem
        rw [mem_range_sub_iff] at ha
        rw [mem_datasetsToEvaluate] at h2
        exact ⟨ha.1, ha.2, h1, h2⟩
      · cases h
    · rintro ⟨h1, h2, h3, h4⟩
      exact Or.inl ⟨e, (mem_range_sub_iff _ _ _).2 ⟨h1, h2⟩,
        (mem_epochEvents_evalStep cfg e e k name).2
          ⟨rfl, h3, (mem_datasetsToEvaluate cfg e name).2 h4⟩⟩
  have hA : ∀ x ∈ (List.range cfg.steps_per_epoch).map (Event.trainStep e),
      Event.isTrain x = true := by
    intro x hx
    rw [List.mem_map] at hx
    obtain ⟨i, _, rfl⟩ := hx
    rfl
  have hBC : ∀ x ∈ (datasetsToEvaluate cfg e).flatMap
      (fun n => (List.range cfg.steps_per_eval).map (Event.evalStep e n)) ++
      (if 0 < cfg.checkpoint_interval ∧
          ((e : ℤ) + 1) % cfg.checkpoint_interval = 0 then
        [Event.saveCheckpoint e]
      else []), Event.isTrain x = false := by
    intro x hx
    rw [List.mem_append] at hx
    rcases hx with hx | hx
    · rw [List.mem_flatMap] at hx
      obtain ⟨n, _, hx⟩ := hx
      rw [List.mem_map] at hx
      obtain ⟨i, _, rfl⟩ := hx
      rfl
    · rw [List.mem_ite_nil_right] at hx
      obtain ⟨_, hx⟩ := hx
      rw [List.mem_singleton] at hx
      subst hx
      rfl
  refine ⟨htrain, heval, ?_, ?_, ?_⟩
  · intro hci
    rw [heval, hci]
    norm_num
  · rw [epochEvents, List.append_assoc, List.filter_append,
      List.filter_eq_self.2 hA, (List.filter_eq_nil_iff).2 ?_]
    · simp
    · intro a ha
      simp [hBC a ha]
  · rw [epochEvents, List.append_assoc]
    exact takeWhile_eq_filter_split _ _ _ hA hBC

/-- Witness for C7 at a concrete configuration: with one epoch of two
training steps and `corruptions_interval = -1`, training step 0 of
epoch 0 occurs in the loop trace. -/
theorem epoch_schedule_witness :
    Event.trainStep 0 0 ∈
      mainLoopEvents (LoopConfig.mk 0 1 2 1 (-1) (-1) []) :=
  (epoch_schedule (LoopConfig.mk 0 1 2 1 (-1) (-1) []) 0 0 "clean").1.mpr
    (by decide)

/-- Witness for C9 at `num_bins = 15`: the amended key relationship
holds for the concrete base-metrics dictionaries. -/
theorem log_epoch_metrics_keys_amended_witness :
    log_epoch_metrics_keys_read true ⊆ baseMetricsKeys true 15 ∧
    "train/auc" ∈ log_epoch_metrics_keys_read false ∧
    "train/auc" ∉ baseMetricsKeys false 15 ∧
    "test/auc" ∈ log_epoch_metrics_keys_read false ∧
    "test/auc" ∉ baseMetricsKeys false 15 ∧
    (log_epoch_metrics_keys_read false).removeAll ["train/auc", "test/auc"]
      ⊆ baseMetricsKeys false 15 :=
  log_epoch_metrics_keys_amended 15

/-! ### Step-function error behaviour -/

/-- Helper: a sequence of metric updates never raises a `ValueError`;
its only possible failure is a `KeyError`. -/
theorem updateAll_ne_valueError (avail ks : List String) (msg : String) :
    updateAll avail ks ≠ Except.error (PyError.valueError msg) := by
  induction ks with
  | nil => simp [updateAll]
  | cons k rest ih =>
      rw [updateAll]
      by_cases h : k ∈ avail
      · rw [if_pos h]; exact ih
      · rw [if_neg h]; simp

/-- Helper: the training-loss selection either returns a value or fails
with the `AttributeError` raised by the `tf.softmax` lookup; it never
raises a `ValueError`. -/
theorem train_process_ok_or_attributeError {B E C : ℕ} (loss : Loss)
    (logits : Fin B → Fin E → Fin C → ℝ)
    (routing_weights : Fin B → Fin E → ℝ) (labels : Fin B → Fin C) :
    (∃ p, _process_3d_logits_train loss logits routing_weights labels =
      Except.ok p) ∨
    _process_3d_logits_train loss logits routing_weights labels =
      Except.error (PyError.attributeError
        "module tensorflow has no attribute softmax") := by
  cases loss <;>
    first
    | exact Or.inl ⟨_, rfl⟩
    | exact Or.inr rfl

/-- C1: evaluating the training-loss selection at the failing inputs:
for `loss` equal to `poe` or `unweighted_poe`, `_process_3d_logits_train`
fails with the `AttributeError` raised by the nonexistent `tf.softmax`
attribute, for any logits, routing weights and labels, while each of the
other four loss values successfully returns a `(probs, nll)` pair. -/
theorem train_loss_selection_poe_fails {B E C : ℕ}
    (logits : Fin B → Fin E → Fin C → ℝ)
    (routing_weights : Fin B → Fin E → ℝ) (labels : Fin B → Fin C) :
    _process_3d_logits_train Loss.poe logits routing_weights labels =
      Except.error (PyError.attributeError
        "module tensorflow has no attribute softmax") ∧
    _process_3d_logits_train Loss.unweighted_poe logits routing_weights
        labels =
      Except.error (PyError.attributeError
        "module tensorflow has no attribute softmax") ∧
    (∃ p, _process_3d_logits_train Loss.gibbs_ce logits routing_weights
        labels = Except.ok p) ∧
    (∃ p, _process_3d_logits_train Loss.unweighted_gibbs_ce logits
        routing_weights labels = Except.ok p) ∧
    (∃ p, _process_3d_logits_train Loss.moe logits routing_weights
        labels = Except.ok p) ∧
    (∃ p, _process_3d_logits_train Loss.unweighted_moe logits
        routing_weights labels = Except.ok p) := by
  refine ⟨rfl, rfl, ⟨_, rfl⟩, ⟨_, rfl⟩, ⟨_, rfl⟩, ⟨_, rfl⟩⟩

/-- C3: in both step functions, a `ValueError` is raised if and only if
the model output is not a tuple; when the output is a tuple, no branch
of either step function raises a `ValueError` (the remaining possible
failures are the propagated `AttributeError` of the `poe` losses and
`KeyError` of dictionary lookups, which no explicit check guards). -/
theorem step_value_error_iff_not_tuple {B E C : ℕ} (loss : Loss)
    (reduce_dense_outputs use_cond_dense : Bool) (num_experts : ℕ)
    (dataset_name : String) (metric_keys corrupt_keys : List String)
    (out : ModelOutput B E C) (labels : Fin B → Fin C) :
    ((∃ msg, train_step_fn loss reduce_dense_outputs use_cond_dense out
        labels = Except.error (PyError.valueError msg)) ↔
      out.isTuple = false) ∧
    ((∃ msg, test_step_fn reduce_dense_outputs use_cond_dense num_experts
        dataset_name metric_keys corrupt_keys out labels =
        Except.error (PyError.valueError msg)) ↔
      out.isTuple = false) := by
  cases out with
  | tensor t =>
      constructor
      · simp [train_step_fn, ModelOutput.isTuple]
      · simp [test_step_fn, ModelOutput.isTuple]
  | tuple l rw =>
      constructor
      · simp only [ModelOutput.isTuple, Bool.true_eq_false, iff_false]
        rintro ⟨msg, hmsg⟩
        rw [train_step_fn] at hmsg
        by_cases h : (!reduce_dense_outputs && use_cond_dense) = true
        · rw [if_pos h] at hmsg
          rcases train_process_ok_or_attributeError loss l rw labels with
            ⟨p, hp⟩ | hp <;> rw [hp] at hmsg <;> cases hmsg
        · rw [if_neg h] at hmsg
          cases hmsg
      · simp only [ModelOutput.isTuple, Bool.true_eq_false, iff_false]
        rintro ⟨msg, hmsg⟩
        rw [test_step_fn] at hmsg
        by_cases hd : dataset_name = "clean" <;>
          by_cases h : (!reduce_dense_outputs && use_cond_dense) = true <;>
          simp only [hd, h, if_pos, if_neg, if_true, if_false,
            reduceIte] at hmsg <;>
          exact updateAll_ne_valueError _ _ msg hmsg

/-- C5: evaluating `test_step` on a corrupted dataset with the CondDense
path active: the fourth metric update looks up the key
`test/nll_weighted_moegaussian_noise_1` (no underscore before the
dataset name), which the `corrupt_metrics` dictionary built before
training does not contain, so the step fails with a `KeyError`. -/
theorem corrupt_metrics_key_lookup_fails :
    test_step_fn false true 1 "gaussian_noise_1" []
      (corrupt_metrics_keys ["gaussian_noise_1"])
      (ModelOutput.tuple (fun _ _ _ => 0) (fun _ _ => 0) :
        ModelOutput 1 1 1) (fun _ => 0) =
      Except.error
        (PyError.keyError "test/nll_weighted_moegaussian_noise_1") := by
  rfl

/-! ### Combination formulas of `_process_3d_logits` -/

/-- C2, counterexample: at logits all zero over one class and two
experts with routing weights all one, the combined `weighted_probs`
entry is `2`, while the weighted mean over the expert axis of the
per-expert softmax probabilities is `1`, so the weighted probability
combination is not a weighted mean over experts. -/
theorem weighted_probs_not_weighted_mean :
    (_process_3d_logits (B := 1) (E := 2) (C := 1)
        (fun _ _ _ => 0) (fun _ _ => 1) (fun _ => 0)).weighted_probs 0 0 ≠
      specWeightedMean (E := 2) (fun _ => 1)
        (fun _ => tf_nn_softmax (fun _ : Fin 1 => (0 : ℝ)) 0) := by
  have hv : tf_nn_softmax (fun _ : Fin 1 => (0 : ℝ)) 0 = 1 := by
    simp [tf_nn_softmax]
  simp only [_process_3d_logits, reduce_sum_experts, specWeightedMean, hv,
    Fin.sum_univ_two, one_mul]
  norm_num

/-- C2, amended: in `_process_3d_logits`, the unweighted logits and
probability combinations are arithmetic means over the expert axis; the
weighted logits combination is the routing-weighted sum over experts
divided by `num_experts` (a `reduce_mean` of the weighted terms, not
normalized by the total weight); and the weighted probability
combination is the routing-weighted sum over experts with no
normalization at all. -/
theorem process_3d_logits_combination_formulas {B E C : ℕ}
    (logits : Fin B → Fin E → Fin C → ℝ)
    (routing_weights : Fin B → Fin E → ℝ) (labels : Fin B → Fin C)
    (b : Fin B) (c : Fin C) :
    (_process_3d_logits logits routing_weights labels).unweighted_logits
        b c = specArithMean (fun e => logits b e c) ∧
    (_process_3d_logits logits routing_weights labels).unweighted_probs
        b c = specArithMean (fun e => tf_nn_softmax (logits b e) c) ∧
    (_process_3d_logits logits routing_weights labels).weighted_logits
        b c = specWeightedSum (routing_weights b)
          (fun e => logits b e c) / (E : ℝ) ∧
    (_process_3d_logits logits routing_weights labels).weighted_probs
        b c = specWeightedSum (routing_weights b)
          (fun e => tf_nn_softmax (logits b e) c) :=
  ⟨rfl, rfl, rfl, rfl⟩

/-- C4: the unweighted Gibbs cross-entropy is the mean over the batch
and the experts of the per-expert cross-entropy of each expert's logits
against the label, and the weighted Gibbs cross-entropy is the mean over
the batch of the sum over experts of the routing weight times that
per-expert cross-entropy: both average per-expert losses, not the loss
of a combined prediction. -/
theorem gibbs_ce_formulas {B E C : ℕ}
    (logits : Fin B → Fin E → Fin C → ℝ)
    (routing_weights : Fin B → Fin E → ℝ) (labels : Fin B → Fin C) :
    (_process_3d_logits logits routing_weights labels).unweighted_gibbs_ce
      = (∑ b, (∑ e, sparse_ce_from_logits (logits b e) (labels b)) /
          (E : ℝ)) / (B : ℝ) ∧
    (_process_3d_logits logits routing_weights labels).weighted_gibbs_ce
      = (∑ b, ∑ e, routing_weights b e *
          sparse_ce_from_logits (logits b e) (labels b)) / (B : ℝ) := by
  constructor
  · show reduce_mean_all
      (fun b e => sparse_ce_from_logits (logits b e) (labels b)) = _
    rw [reduce_mean_all, ← Finset.sum_div, div_div, mul_comm]
  · rfl
